import Mathlib

/-!
Verification of the port_scanner repository: a shallow embedding of the
configuration reader (`lib_config_parser.hpp`), the config extraction and
integer parsing utilities, and the Linux scanner (`port_scanner_linux.cpp`,
`Socket::connect` / `PortScanner::scan`), together with a model of the
spec's batched readiness-multiplexed scanner core, and theorems settling
the behavioural claims about them.
-/

namespace PortScannerRepo

/-- C `isspace` for the characters a config line can contain:
space, tab, newline, vertical tab, form feed, carriage return. -/
def isspace (c : Char) : Bool :=
  c = ' ' || c = '\t' || c = '\n' || c = Char.ofNat 11 || c = Char.ofNat 12 || c = '\r'

/-- Removal of trailing whitespace, as performed by the backward trim loop at
the end of `ConfigParser::process_line` (lib_config_parser.hpp lines 70-74). -/
def dropTrailingSpace (l : List Char) : List Char :=
  (l.reverse.dropWhile isspace).reverse

/-- `ConfigParser::process_line` (lib_config_parser.hpp lines 18-78): skip
leading whitespace; take the key as the maximal run of non-whitespace
characters; if the line ends inside or right after the key, produce nothing;
scan forward to the first `'='`; if none, produce nothing; step past it and
skip whitespace; if the line has ended, produce nothing; otherwise the value
is the rest of the line with trailing whitespace trimmed. -/
def process_line (line : List Char) : Option (List Char × List Char) :=
  let r1 := line.dropWhile isspace
  if r1.isEmpty then none
  else
    let key := r1.takeWhile (fun c => !(isspace c))
    let r2 := r1.dropWhile (fun c => !(isspace c))
    if r2.isEmpty then none
    else
      let r3 := r2.dropWhile (fun c => !(decide (c = '=')))
      if r3.isEmpty then none
      else
        let r4 := (r3.drop 1).dropWhile isspace
        if r4.isEmpty then none
        else some (key, dropTrailingSpace r4)

/-- `std::map::emplace` semantics used by `process_line`'s result store:
insert the pair only when the key is not already present. -/
def emplace (m : List (List Char × List Char)) (kv : List Char × List Char) :
    List (List Char × List Char) :=
  if (m.lookup kv.fst).isSome then m else m ++ [kv]

/-- `ConfigParser::parse` (lib_config_parser.hpp lines 82-98), modelled on the
list of lines of the already-read file: every non-empty line goes through
`process_line` and a produced pair is emplaced into the result map. -/
def ConfigParser.parse (lines : List (List Char)) : List (List Char × List Char) :=
  lines.foldl
    (fun m line =>
      if line.isEmpty then m
      else
        match process_line line with
        | none => m
        | some kv => emplace m kv)
    []

/-- Reduction of a value into the 32-bit `int` range, two's complement:
the result lies in `[-2^31, 2^31)` and is congruent to the argument
modulo `2^32`. -/
def wrap32 (x : Int) : Int := (x + 2147483648) % 4294967296 - 2147483648

/-- Accumulator loop of `parse_positive_integer` (port_scanner_linux.cpp lines
221-228): fold digits into the accumulator, return -1 on the first
non-digit character. The C++ accumulator is a 32-bit `int`, so each
`10 * number + digit` step is reduced by `wrap32`, modelling the
two's-complement wrap the program exhibits on overflow (formally undefined
behaviour in C++). -/
def ppi_loop : List Char → Int → Int
  | [], number => number
  | c :: cs, number =>
    if c.isDigit then ppi_loop cs (wrap32 (10 * number + ((c.toNat - Char.toNat '0' : Nat) : Int)))
    else -1

/-- `parse_positive_integer` (port_scanner_linux.cpp lines 218-231). Note:
unlike `parse_port`, it imposes no 65535 upper bound, and a digit string
whose value reaches `2^31` wraps negative. -/
def parse_positive_integer (s : List Char) : Int := ppi_loop s 0

/-- The unbounded mathematical value of a digit string under the same
left-to-right accumulation, for relating `parse_positive_integer` to the
number its input denotes. -/
def digitsValue (s : List Char) : Int :=
  s.foldl (fun n c => 10 * n + ((c.toNat - Char.toNat '0' : Nat) : Int)) 0

/-- `ConfigExtractError` (port_scanner_linux.cpp lines 234-245). -/
inductive ConfigExtractError where
  | success
  | not_found_ip
  | not_found_port_start
  | not_found_port_end
  | not_found_timeout_millisec
  | invalid_port_start
  | invalid_port_end
  | invalid_timeout_millisec
deriving DecidableEq, Repr

/-- `Config` (port_scanner_linux.cpp lines 247-252). -/
structure Config where
  ip : List Char
  port_start : Int
  port_end : Int
  timeout_millisec : Int
deriving DecidableEq, Repr

/-- The key string literal `"ip"`. -/
def config_ip : List Char := ['i', 'p']

/-- The key string literal `"port_start"`. -/
def config_port_start : List Char := ['p', 'o', 'r', 't', '_', 's', 't', 'a', 'r', 't']

/-- The key string literal `"port_end"`. -/
def config_port_end : List Char := ['p', 'o', 'r', 't', '_', 'e', 'n', 'd']

/-- The key string literal `"timeout_millisec"`. -/
def config_timeout_millisec : List Char :=
  ['t', 'i', 'm', 'e', 'o', 'u', 't', '_', 'm', 'i', 'l', 'l', 'i', 's', 'e', 'c']

/-- `config_extract` (port_scanner_linux.cpp lines 277-324). The C++ function
fills a `Config&` out-parameter and returns the error enum; the embedding
returns the pair of the enum and the (possibly partially updated) config,
starting from the caller's `config0`. -/
def config_extract (configMap : List (List Char × List Char)) (config0 : Config) :
    ConfigExtractError × Config :=
  match configMap.lookup config_ip with
  | none => (ConfigExtractError.not_found_ip, config0)
  | some ip_val =>
    match configMap.lookup config_port_start with
    | none => (ConfigExtractError.not_found_port_start, config0)
    | some port_start_val =>
      match configMap.lookup config_port_end with
      | none => (ConfigExtractError.not_found_port_end, config0)
      | some port_end_val =>
        match configMap.lookup config_timeout_millisec with
        | none => (ConfigExtractError.not_found_timeout_millisec, config0)
        | some timeout_val =>
          let config1 := { config0 with ip := ip_val }
          let port_start := parse_positive_integer port_start_val
          if port_start < 0 then (ConfigExtractError.invalid_port_start, config1)
          else
            let port_end := parse_positive_integer port_end_val
            if port_end < 0 then (ConfigExtractError.invalid_port_end, config1)
            else
              let timeout_millisec := parse_positive_integer timeout_val
              if timeout_millisec < 0 then
                (ConfigExtractError.invalid_timeout_millisec, config1)
              else
                (ConfigExtractError.success,
                  { config1 with
                      port_start := if port_start < port_end then port_start else port_end,
                      port_end := if port_start > port_end then port_start else port_end,
                      timeout_millisec := timeout_millisec })

/-- A value is numeric in the sense implemented by `parse_positive_integer`:
every character is a decimal digit. -/
def numericValue (v : List Char) : Bool := v.all Char.isDigit

/-- The returned error is one of the four `not_found` kinds. -/
def isNotFoundErr : ConfigExtractError → Bool
  | ConfigExtractError.not_found_ip => true
  | ConfigExtractError.not_found_port_start => true
  | ConfigExtractError.not_found_port_end => true
  | ConfigExtractError.not_found_timeout_millisec => true
  | _ => false

/-- The returned error is one of the three `invalid` kinds. -/
def isInvalidErr : ConfigExtractError → Bool
  | ConfigExtractError.invalid_port_start => true
  | ConfigExtractError.invalid_port_end => true
  | ConfigExtractError.invalid_timeout_millisec => true
  | _ => false

/-- Outcome of the non-blocking `::connect` system call in `Socket::connect`
(port_scanner_linux.cpp line 68): immediate success (`result == 0`),
`errno == EINPROGRESS`, or any other synchronous failure. -/
inductive ConnRes where
  | immediate
  | einprogress
  | errOther
deriving DecidableEq, Repr

/-- The system-call behaviour one connect attempt observes: whether
`::socket`, `inet_pton` and the two `fcntl` calls succeed, how `::connect`
returns, what `poll` returns, and whether `getsockopt(SO_ERROR)` succeeds
and which pending error it reports. -/
structure SockEnv where
  socket_ok : Bool
  pton_ok : Bool
  getfl_ok : Bool
  setfl_ok : Bool
  connectRes : ConnRes
  pollRes : Int
  sockopt_ok : Bool
  soError : Int
deriving DecidableEq, Repr

/-- `Socket::connect` (port_scanner_linux.cpp lines 50-96) over the attempt's
system-call behaviour `e`: fail if `inet_pton` or either `fcntl` fails;
succeed on immediate connect; fail on a synchronous connect error other than
`EINPROGRESS`; otherwise `poll` once with the timeout, fail if it returns
zero (timeout) or negative (error), fail if `getsockopt(SO_ERROR)` fails,
and finally succeed exactly when the pending error is zero. -/
def Socket.connect (e : SockEnv) : Bool :=
  if e.pton_ok = false then false
  else if e.getfl_ok = false then false
  else if e.setfl_ok = false then false
  else
    match e.connectRes with
    | ConnRes.immediate => true
    | ConnRes.errOther => false
    | ConnRes.einprogress =>
      if e.pollRes ≤ 0 then false
      else if e.sockopt_ok = false then false
      else decide (e.soError = 0)

/-- `PortScanner::port_scan` (port_scanner_linux.cpp lines 179-182):
open a TCP socket and connect. -/
def PortScanner.port_scan (e : SockEnv) : Bool :=
  e.socket_ok && Socket.connect e

/-- The index sequence of the scan loop
`for (int i = port_start; i <= port_end; ++i)`
(port_scanner_linux.cpp line 188). -/
def scanIndices (port_start port_end : Nat) : List Nat :=
  List.range' port_start (port_end + 1 - port_start)

/-- `PortScanner::scan` (port_scanner_linux.cpp lines 184-195): start from
the all-false `PortsTable` and, for every `i` from `port_start` to
`port_end`, perform `table.set(i, port_scan(ip, i, timeout_millisec))`.
Each submitted task's effect on the table is applied; the table is the
function from port index to bit. `env i` is the system-call behaviour the
attempt for port `i` observes. -/
def PortScanner.scan (env : Nat → SockEnv) (port_start port_end : Nat) : Nat → Bool :=
  (scanIndices port_start port_end).foldl
    (fun table i => fun j => if j = i then PortScanner.port_scan (env i) else table j)
    (fun _ => false)

/-- The opened-port report loop of `main` (port_scanner_linux.cpp lines
362-366): the ports `0 ≤ i < 65536` whose table bit is set, in ascending
order. -/
def openedPortsList (table : Nat → Bool) : List Nat :=
  (List.range 65536).filter table

/-- The attempt for this system-call behaviour accepts the TCP connection
within the timeout: the non-blocking connect succeeds immediately, or it
reports in-progress and the readiness wait reports the socket ready within
the timeout with no pending socket error. -/
def acceptsWithin (e : SockEnv) : Prop :=
  e.connectRes = ConnRes.immediate ∨
    (e.connectRes = ConnRes.einprogress ∧ 0 < e.pollRes ∧ e.soError = 0)

/-- A responsive network in which exactly the ports `p` with `A p = true`
accept a TCP connection within the timeout: the local system calls
(`::socket`, `inet_pton`, `fcntl`, `getsockopt`) all succeed, and the
attempt for port `p` accepts within the timeout precisely when `A p`. -/
def responsiveNet (env : Nat → SockEnv) (A : Nat → Bool) : Prop :=
  ∀ p, (env p).socket_ok = true ∧ (env p).pton_ok = true ∧ (env p).getfl_ok = true ∧
    (env p).setfl_ok = true ∧ (env p).sockopt_ok = true ∧
    (acceptsWithin (env p) ↔ A p = true)

/-- Modelled from the spec: the Connect Attempt Record state machine of
section 4.3, which belongs to the epoll-driven batch-connector core that is
not under src/ (src/ holds only the thread-pool and config collaborators). -/
inductive AttemptState where
  | Pending
  | ConnectedImmediately
  | InProgress
  | Opened
  | Closed
deriving DecidableEq, Repr

/-- Modelled from the spec: outcome of the non-blocking connect submission of
an attempt in the missing epoll-driven core (section 4.3): immediate
success, in-progress, or any other synchronous failure. -/
inductive SubmitOutcome where
  | immediate
  | inProgress
  | failed
deriving DecidableEq, Repr

/-- Modelled from the spec: the systemic fatal errors of the missing
epoll-driven core (sections 4.2 and 7): readiness-multiplexer context
creation failure and registration failure. -/
inductive FatalError where
  | contextCreation
  | registration
deriving DecidableEq, Repr

/-- Modelled from the spec: a Connect Attempt Record of the missing
epoll-driven core (section 3): submission index (the back-reference), target
port, and state. -/
structure AttemptRecord where
  idx : Nat
  port : Nat
  state : AttemptState
deriving DecidableEq, Repr

/-- Modelled from the spec: the environment one batch of the missing
epoll-driven core observes: whether the readiness context can be created,
which registrations succeed (by back-reference), each attempt's submission
outcome, the back-references the single wait call reports ready, and for a
ready attempt whether the event signals error/hangup and whether the pending
error query reports an error (an unreadable error status counts as an
error). -/
structure MuxEnv where
  ctx_ok : Bool
  reg_ok : Nat → Bool
  submitRes : Nat → SubmitOutcome
  readyRefs : List Nat
  errorEvent : Nat → Bool
  pendingError : Nat → Bool

/-- Modelled from the spec: submission of one attempt (section 4.3):
immediate success becomes `ConnectedImmediately`; in-progress registers the
socket with the multiplexer — a registration failure is the fatal
`registration` error — and becomes `InProgress`; any other synchronous
failure becomes `Closed`. -/
def submitOne (env : MuxEnv) (idx port : Nat) : Except FatalError AttemptRecord :=
  match env.submitRes idx with
  | SubmitOutcome.immediate =>
    Except.ok { idx := idx, port := port, state := AttemptState.ConnectedImmediately }
  | SubmitOutcome.failed =>
    Except.ok { idx := idx, port := port, state := AttemptState.Closed }
  | SubmitOutcome.inProgress =>
    if env.reg_ok idx then
      Except.ok { idx := idx, port := port, state := AttemptState.InProgress }
    else Except.error FatalError.registration

/-- Modelled from the spec: submission of a batch's ports in order (section
4.4 step 1), building the Connect Attempt Records; the first fatal
registration failure aborts. -/
def submitAll (env : MuxEnv) (idx : Nat) : List Nat → Except FatalError (List AttemptRecord)
  | [] => Except.ok []
  | p :: ps =>
    match submitOne env idx p with
    | Except.error e => Except.error e
    | Except.ok r =>
      match submitAll env (idx + 1) ps with
      | Except.error e => Except.error e
      | Except.ok rs => Except.ok (r :: rs)

/-- Modelled from the spec: the readiness transition rule (section 4.3),
applied to a record whose back-reference the wait call reported ready and
which is still `InProgress`: an error/hangup event closes it; otherwise a
pending error (or unreadable error status) closes it; otherwise it opens. -/
def classifyReady (env : MuxEnv) (r : AttemptRecord) : AttemptRecord :=
  if r.state = AttemptState.InProgress && env.readyRefs.contains r.idx then
    if env.errorEvent r.idx then { r with state := AttemptState.Closed }
    else if env.pendingError r.idx then { r with state := AttemptState.Closed }
    else { r with state := AttemptState.Opened }
  else r

/-- Modelled from the spec: a record still `InProgress` after the single wait
call is treated as `Closed` (section 4.3). -/
def finalizeRecord (r : AttemptRecord) : AttemptRecord :=
  if r.state = AttemptState.InProgress then { r with state := AttemptState.Closed } else r

/-- The attempt is reported open: `Opened`, or `ConnectedImmediately`
(folded into open for reporting). -/
def isOpenOutcome (r : AttemptRecord) : Bool :=
  r.state = AttemptState.Opened || r.state = AttemptState.ConnectedImmediately

/-- Modelled from the spec: one Batch Connector cycle of the missing
epoll-driven core (section 4.4): create the batch-local readiness
multiplexer — a creation failure is the fatal `contextCreation` error —
submit every port, run the single wait call and apply the readiness rule,
abandon the still-pending attempts, and collect the open ports in
submission order. -/
def BatchConnector.run (env : MuxEnv) (ports : List Nat) : Except FatalError (List Nat) :=
  if env.ctx_ok = false then Except.error FatalError.contextCreation
  else
    match submitAll env 0 ports with
    | Except.error e => Except.error e
    | Except.ok recs =>
      Except.ok
        (((recs.map (classifyReady env)).map finalizeRecord).filterMap
          (fun r => if isOpenOutcome r then some r.port else none))

/-- Modelled from the spec: the Scanner's partition of the requested port
sequence into consecutive chunks of at most `n` (section 4.5). -/
def portChunks (n : Nat) : List Nat → List (List Nat)
  | [] => []
  | p :: ps => (p :: ps.take (n - 1)) :: portChunks n (ps.drop (n - 1))
termination_by l => l.length
decreasing_by
  simp only [List.length_drop, List.length_cons]
  omega

/-- Modelled from the spec: the Scanner's sequential batch loop (section
4.5): run one Batch Connector per chunk in order — `b` numbers the batches
and `env b` is the environment that batch observes — concatenating the
opened-port findings; a fatal error propagates and no partial result is
returned. -/
def scanBatches (env : Nat → MuxEnv) : Nat → List (List Nat) → Except FatalError (List Nat)
  | _, [] => Except.ok []
  | b, c :: cs =>
    match BatchConnector.run (env b) c with
    | Except.error e => Except.error e
    | Except.ok opened =>
      match scanBatches env (b + 1) cs with
      | Except.error e => Except.error e
      | Except.ok rest => Except.ok (opened ++ rest)

/-- Modelled from the spec: the Scanner entry point of the missing
epoll-driven core (sections 4.5 and 6): partition the ports into chunks of
at most `n` and drive the batches sequentially. -/
def Scanner.scan (env : Nat → MuxEnv) (n : Nat) (ports : List Nat) :
    Except FatalError (List Nat) :=
  scanBatches env 0 (portChunks n ports)

/-- A default-initialized `Config`, standing for the caller's `Config` local
before `config_extract` fills it. -/
def cfgDefault : Config := { ip := [], port_start := 0, port_end := 0, timeout_millisec := 0 }

/-- A concrete configuration map whose `port_end` value is 70000: every key
present, every value numeric, but the port exceeds 65535. -/
def mapOutOfRange : List (List Char × List Char) :=
  [(config_ip, ['1', '2', '7', '.', '0', '.', '0', '.', '1']),
   (config_port_start, ['1']),
   (config_port_end, ['7', '0', '0', '0', '0']),
   (config_timeout_millisec, ['1', '0', '0'])]

/-- A concrete configuration map with `port_start` 5 greater than
`port_end` 3. -/
def mapSwapped : List (List Char × List Char) :=
  [(config_ip, ['1', '2', '7', '.', '0', '.', '0', '.', '1']),
   (config_port_start, ['5']),
   (config_port_end, ['3']),
   (config_timeout_millisec, ['1', '0', '0'])]

/-- A system-call behaviour whose non-blocking connect reports in-progress,
whose readiness wait reports the socket ready, and whose pending-error query
succeeds reporting no error. -/
def envInProgressOk : SockEnv :=
  { socket_ok := true, pton_ok := true, getfl_ok := true, setfl_ok := true,
    connectRes := ConnRes.einprogress, pollRes := 1, sockopt_ok := true, soError := 0 }

/-- A system-call behaviour whose non-blocking connect fails synchronously
(for example, connection refused). -/
def envRefuse : SockEnv :=
  { socket_ok := true, pton_ok := true, getfl_ok := true, setfl_ok := true,
    connectRes := ConnRes.errOther, pollRes := 1, sockopt_ok := true, soError := 0 }

/-- A system-call behaviour whose non-blocking connect reports in-progress
and whose readiness wait returns without reporting the socket ready. -/
def envPollTimeout : SockEnv :=
  { socket_ok := true, pton_ok := true, getfl_ok := true, setfl_ok := true,
    connectRes := ConnRes.einprogress, pollRes := 0, sockopt_ok := true, soError := 0 }

/-- A network in which exactly port 80 accepts within the timeout. -/
def envOnly80 : Nat → SockEnv := fun p => if p = 80 then envInProgressOk else envRefuse

/-- The set consisting of port 80 alone. -/
def setOnly80 : Nat → Bool := fun p => p == 80

/-- A network in which every attempt is abandoned by the readiness wait. -/
def envAllTimeout : Nat → SockEnv := fun _ => envPollTimeout

/-- A batch environment whose readiness-multiplexer context creation fails. -/
def muxCtxFail : MuxEnv :=
  { ctx_ok := false, reg_ok := fun _ => true, submitRes := fun _ => SubmitOutcome.inProgress,
    readyRefs := [], errorEvent := fun _ => false, pendingError := fun _ => false }

/-- A batch environment whose context creation succeeds and whose
registrations and waits behave trivially. -/
def muxAllOk : MuxEnv :=
  { ctx_ok := true, reg_ok := fun _ => true, submitRes := fun _ => SubmitOutcome.inProgress,
    readyRefs := [], errorEvent := fun _ => false, pendingError := fun _ => false }

/-- Every batch of this scan observes the failing-context environment. -/
def muxCtxFailAll : Nat → MuxEnv := fun _ => muxCtxFail

/-- The value found for a key is accepted by the integer parse: it is
numeric and its digit value does not wrap to a negative 32-bit `int`.
An absent key imposes nothing. -/
def optAccepted (o : Option (List Char)) : Bool :=
  match o with
  | none => true
  | some v => numericValue v && decide (0 ≤ wrap32 (digitsValue v))

/-- A concrete configuration map whose `port_start` value 2147483648 is
numeric but overflows the 32-bit accumulator. -/
def mapOverflow : List (List Char × List Char) :=
  [(config_ip, ['1', '2', '7', '.', '0', '.', '0', '.', '1']),
   (config_port_start, ['2', '1', '4', '7', '4', '8', '3', '6', '4', '8']),
   (config_port_end, ['3']),
   (config_timeout_millisec, ['1', '0', '0'])]

theorem ppi_loop_neg (s : List Char) (n : Int) (hd : s.all Char.isDigit = false) :
    ppi_loop s n = -1 := by
  induction s generalizing n with
  | nil => simp at hd
  | cons c cs ih =>
    by_cases hc : c.isDigit
    · have hcs : cs.all Char.isDigit = false := by
        simp only [List.all_cons, hc, Bool.true_and] at hd
        exact hd
      simp only [ppi_loop, hc, if_true]
      exact ih _ hcs
    · simp [ppi_loop, hc]

theorem wrap32_absorb (m d : Int) : wrap32 (10 * wrap32 m + d) = wrap32 (10 * m + d) := by
  unfold wrap32
  omega

theorem ppi_loop_wrap (s : List Char) : ∀ m : Int, s.all Char.isDigit = true →
    ppi_loop s (wrap32 m) =
      wrap32 (s.foldl (fun n c => 10 * n + ((c.toNat - Char.toNat '0' : Nat) : Int)) m) := by
  induction s with
  | nil =>
    intro m _
    simp [ppi_loop]
  | cons c cs ih =>
    intro m hd
    simp only [List.all_cons, Bool.and_eq_true] at hd
    simp only [ppi_loop, hd.1, if_true, List.foldl_cons]
    rw [wrap32_absorb]
    exact ih _ hd.2

theorem parse_eq_wrap32 (s : List Char) (h : numericValue s = true) :
    parse_positive_integer s = wrap32 (digitsValue s) := by
  have h0 : wrap32 0 = 0 := by decide
  have hw := ppi_loop_wrap s 0 (by simpa [numericValue] using h)
  rw [h0] at hw
  exact hw

theorem parse_positive_integer_neg_iff (s : List Char) :
    parse_positive_integer s < 0 ↔
      (numericValue s = false ∨ wrap32 (digitsValue s) < 0) := by
  by_cases h : numericValue s = true
  · rw [parse_eq_wrap32 s h, h]
    simp
  · have hf : numericValue s = false := by simpa using h
    have hneg := ppi_loop_neg s 0 (by simpa [numericValue] using hf)
    unfold parse_positive_integer
    rw [hneg]
    constructor
    · intro _
      exact Or.inl hf
    · intro _
      omega

theorem optAccepted_some_false_iff (v : List Char) :
    optAccepted (some v) = false ↔ parse_positive_integer v < 0 := by
  rw [parse_positive_integer_neg_iff]
  unfold optAccepted
  cases hn : numericValue v
  · simp [hn]
  · simp [hn]

theorem config_extract_fst (m : List (List Char × List Char)) (c0 : Config) :
    (config_extract m c0).1 =
      match m.lookup config_ip, m.lookup config_port_start,
          m.lookup config_port_end, m.lookup config_timeout_millisec with
      | none, _, _, _ => ConfigExtractError.not_found_ip
      | some _, none, _, _ => ConfigExtractError.not_found_port_start
      | some _, some _, none, _ => ConfigExtractError.not_found_port_end
      | some _, some _, some _, none => ConfigExtractError.not_found_timeout_millisec
      | some _, some psv, some pev, some tmv =>
        if parse_positive_integer psv < 0 then ConfigExtractError.invalid_port_start
        else if parse_positive_integer pev < 0 then ConfigExtractError.invalid_port_end
        else if parse_positive_integer tmv < 0 then ConfigExtractError.invalid_timeout_millisec
        else ConfigExtractError.success := by
  rcases h1 : m.lookup config_ip with _ | ipv
  · simp [config_extract, h1]
  rcases h2 : m.lookup config_port_start with _ | psv
  · simp [config_extract, h1, h2]
  rcases h3 : m.lookup config_port_end with _ | pev
  · simp [config_extract, h1, h2, h3]
  rcases h4 : m.lookup config_timeout_millisec with _ | tmv
  · simp [config_extract, h1, h2, h3, h4]
  by_cases hps : parse_positive_integer psv < 0
  · simp [config_extract, h1, h2, h3, h4, hps]
  by_cases hpe : parse_positive_integer pev < 0
  · simp [config_extract, h1, h2, h3, h4, hps, hpe]
  by_cases htm : parse_positive_integer tmv < 0
  · simp [config_extract, h1, h2, h3, h4, hps, hpe, htm]
  · simp [config_extract, h1, h2, h3, h4, hps, hpe, htm]

theorem config_extract_snd_success (m : List (List Char × List Char)) (c0 : Config)
    (ipv psv pev tmv : List Char)
    (h1 : m.lookup config_ip = some ipv) (h2 : m.lookup config_port_start = some psv)
    (h3 : m.lookup config_port_end = some pev)
    (h4 : m.lookup config_timeout_millisec = some tmv)
    (hps : ¬ parse_positive_integer psv < 0) (hpe : ¬ parse_positive_integer pev < 0)
    (htm : ¬ parse_positive_integer tmv < 0) :
    (config_extract m c0).2 =
      { ip := ipv,
        port_start := if parse_positive_integer psv < parse_positive_integer pev
          then parse_positive_integer psv else parse_positive_integer pev,
        port_end := if parse_positive_integer psv > parse_positive_integer pev
          then parse_positive_integer psv else parse_positive_integer pev,
        timeout_millisec := parse_positive_integer tmv } := by
  simp [config_extract, h1, h2, h3, h4, hps, hpe, htm]

/-- C7 counterexample: every required key is present and every value is a
digit string, yet `config_extract` returns the "invalid" kind for
port_start — the numeric value 2147483648 overflows the 32-bit `int`
accumulator of `parse_positive_integer` to a negative value — refuting
both "invalid exactly when the value is non-numeric" and "all keys present
with numeric values implies success". -/
theorem config_extract_overflow_counterexample :
    numericValue ['2', '1', '4', '7', '4', '8', '3', '6', '4', '8'] = true ∧
    mapOverflow.lookup config_port_start =
      some ['2', '1', '4', '7', '4', '8', '3', '6', '4', '8'] ∧
    (config_extract mapOverflow cfgDefault).1 = ConfigExtractError.invalid_port_start ∧
    ¬ (config_extract mapOverflow cfgDefault).1 = ConfigExtractError.success := by
  refine ⟨by decide, by decide, by decide, by decide⟩

/-- C7 as amended: `config_extract` returns a "not found" error kind exactly
when one of the required keys ip, port_start, port_end, timeout_millisec is
absent from the parsed configuration map; it returns an "invalid" error
kind exactly when all four keys are present but one of the three
integer-valued keys has a value that is non-numeric or whose digit value
wraps to a negative 32-bit `int` (2^31 or more); and it returns success
exactly when all four keys are present and the three integer-valued keys
all have numeric, non-wrapping values. -/
theorem config_extract_error_kinds (m : List (List Char × List Char)) (c0 : Config) :
    (isNotFoundErr (config_extract m c0).1 = true ↔
      (m.lookup config_ip = none ∨ m.lookup config_port_start = none ∨
        m.lookup config_port_end = none ∨ m.lookup config_timeout_millisec = none)) ∧
    (isInvalidErr (config_extract m c0).1 = true ↔
      ((m.lookup config_ip).isSome = true ∧ (m.lookup config_port_start).isSome = true ∧
        (m.lookup config_port_end).isSome = true ∧
        (m.lookup config_timeout_millisec).isSome = true ∧
        (optAccepted (m.lookup config_port_start) = false ∨
          optAccepted (m.lookup config_port_end) = false ∨
          optAccepted (m.lookup config_timeout_millisec) = false))) ∧
    ((config_extract m c0).1 = ConfigExtractError.success ↔
      ((m.lookup config_ip).isSome = true ∧ (m.lookup config_port_start).isSome = true ∧
        (m.lookup config_port_end).isSome = true ∧
        (m.lookup config_timeout_millisec).isSome = true ∧
        optAccepted (m.lookup config_port_start) = true ∧
        optAccepted (m.lookup config_port_end) = true ∧
        optAccepted (m.lookup config_timeout_millisec) = true)) := by
  rw [config_extract_fst]
  rcases h1 : m.lookup config_ip with _ | ipv
  · simp [h1, isNotFoundErr, isInvalidErr]
  rcases h2 : m.lookup config_port_start with _ | psv
  · simp [h1, h2, isNotFoundErr, isInvalidErr]
  rcases h3 : m.lookup config_port_end with _ | pev
  · simp [h1, h2, h3, isNotFoundErr, isInvalidErr]
  rcases h4 : m.lookup config_timeout_millisec with _ | tmv
  · simp [h1, h2, h3, h4, isNotFoundErr, isInvalidErr]
  have eps := optAccepted_some_false_iff psv
  have epe := optAccepted_some_false_iff pev
  have etm := optAccepted_some_false_iff tmv
  by_cases hps : parse_positive_integer psv < 0
  · have hx : optAccepted (some psv) = false := eps.2 hps
    simp [h1, h2, h3, h4, hps, hx, isNotFoundErr, isInvalidErr]
  have hx : optAccepted (some psv) = true := by
    rcases hb : optAccepted (some psv)
    · exact absurd (eps.1 hb) hps
    · rfl
  by_cases hpe : parse_positive_integer pev < 0
  · have hy : optAccepted (some pev) = false := epe.2 hpe
    simp [h1, h2, h3, h4, hps, hpe, hx, hy, isNotFoundErr, isInvalidErr]
  have hy : optAccepted (some pev) = true := by
    rcases hb : optAccepted (some pev)
    · exact absurd (epe.1 hb) hpe
    · rfl
  by_cases htm : parse_positive_integer tmv < 0
  · have hz : optAccepted (some tmv) = false := etm.2 htm
    simp [h1, h2, h3, h4, hps, hpe, htm, hx, hy, hz, isNotFoundErr, isInvalidErr]
  · have hz : optAccepted (some tmv) = true := by
      rcases hb : optAccepted (some tmv)
      · exact absurd (etm.1 hb) htm
      · rfl
    simp [h1, h2, h3, h4, hps, hpe, htm, hx, hy, hz, isNotFoundErr, isInvalidErr]

theorem mem_scanIndices (port_start port_end p : Nat) :
    p ∈ scanIndices port_start port_end ↔ port_start ≤ p ∧ p ≤ port_end := by
  simp only [scanIndices, List.mem_range']
  constructor
  · rintro ⟨i, hi, rfl⟩
    omega
  · intro h
    exact ⟨p - port_start, by omega, by omega⟩

/-- C9 fails on the code: `config_extract` accepts a configuration whose
`port_end` value is 70000 (its `parse_positive_integer` has no 65535 cap,
unlike the unused `parse_port`), and the scan loop then passes index 70000,
which exceeds 65535, to the 65536-entry port table. -/
theorem config_extract_accepts_out_of_range_port :
    (config_extract mapOutOfRange cfgDefault).1 = ConfigExtractError.success ∧
    (config_extract mapOutOfRange cfgDefault).2.port_end = 70000 ∧
    (config_extract mapOutOfRange cfgDefault).2.port_end.toNat ∈
      scanIndices (config_extract mapOutOfRange cfgDefault).2.port_start.toNat
        (config_extract mapOutOfRange cfgDefault).2.port_end.toNat ∧
    ¬ (config_extract mapOutOfRange cfgDefault).2.port_end.toNat ≤ 65535 := by
  have h2 : (config_extract mapOutOfRange cfgDefault).2.port_start = 1 := by decide
  have h3 : (config_extract mapOutOfRange cfgDefault).2.port_end = 70000 := by decide
  refine ⟨by decide, h3, ?_, ?_⟩
  · rw [h2, h3]
    rw [mem_scanIndices]
    omega
  · rw [h3]
    omega

/-- C10: whenever `config_extract` succeeds, the produced `Config` satisfies
`port_start ≤ port_end`: the two parsed port values are swapped if needed,
and the unordered pair of the two parsed values is unchanged. -/
theorem config_extract_orders_ports (m : List (List Char × List Char)) (c0 : Config)
    (psv pev : List Char)
    (h2 : m.lookup config_port_start = some psv)
    (h3 : m.lookup config_port_end = some pev)
    (hs : (config_extract m c0).1 = ConfigExtractError.success) :
    (config_extract m c0).2.port_start ≤ (config_extract m c0).2.port_end ∧
    (((config_extract m c0).2.port_start = parse_positive_integer psv ∧
        (config_extract m c0).2.port_end = parse_positive_integer pev) ∨
      ((config_extract m c0).2.port_start = parse_positive_integer pev ∧
        (config_extract m c0).2.port_end = parse_positive_integer psv)) := by
  have hfst := config_extract_fst m c0
  rcases h1 : m.lookup config_ip with _ | ipv
  · rw [hfst] at hs
    simp [h1] at hs
  rcases h4 : m.lookup config_timeout_millisec with _ | tmv
  · rw [hfst] at hs
    simp [h1, h2, h3, h4] at hs
  simp only [h1, h2, h3, h4] at hfst
  rw [hfst] at hs
  by_cases hps : parse_positive_integer psv < 0
  · simp [hps] at hs
  by_cases hpe : parse_positive_integer pev < 0
  · simp [hps, hpe] at hs
  by_cases htm : parse_positive_integer tmv < 0
  · simp [hps, hpe, htm] at hs
  have hsnd := config_extract_snd_success m c0 ipv psv pev tmv h1 h2 h3 h4 hps hpe htm
  rw [hsnd]
  simp only [gt_iff_lt]
  split_ifs with hlt hgt hgt
  · exact absurd hgt (by omega)
  · exact ⟨by omega, Or.inl ⟨rfl, rfl⟩⟩
  · exact ⟨by omega, Or.inr ⟨rfl, rfl⟩⟩
  · exact ⟨by omega, Or.inl ⟨by omega, by omega⟩⟩

/-- Witness for C10 at a concrete configuration map with `port_start` value 5
and `port_end` value 3: extraction succeeds and the produced config holds
the ordered pair. -/
theorem config_extract_orders_ports_witness :
    mapSwapped.lookup config_port_start = some ['5'] ∧
    mapSwapped.lookup config_port_end = some ['3'] ∧
    (config_extract mapSwapped cfgDefault).1 = ConfigExtractError.success ∧
    ((config_extract mapSwapped cfgDefault).2.port_start ≤
        (config_extract mapSwapped cfgDefault).2.port_end ∧
      (((config_extract mapSwapped cfgDefault).2.port_start = parse_positive_integer ['5'] ∧
          (config_extract mapSwapped cfgDefault).2.port_end = parse_positive_integer ['3']) ∨
        ((config_extract mapSwapped cfgDefault).2.port_start = parse_positive_integer ['3'] ∧
          (config_extract mapSwapped cfgDefault).2.port_end = parse_positive_integer ['5']))) :=
  ⟨by decide, by decide, by decide,
    config_extract_orders_ports mapSwapped cfgDefault ['5'] ['3']
      (by decide) (by decide) (by decide)⟩

theorem dropWhile_append_all {p : Char → Bool} {l1 : List Char} (l2 : List Char)
    (h : ∀ c ∈ l1, p c = true) : (l1 ++ l2).dropWhile p = l2.dropWhile p := by
  induction l1 with
  | nil => simp
  | cons a l ih =>
    simp only [List.cons_append, List.dropWhile_cons, h a (List.mem_cons_self a l), if_true]
    exact ih (fun c hc => h c (List.mem_cons_of_mem a hc))

theorem takeWhile_append_all {p : Char → Bool} {l1 : List Char} (l2 : List Char)
    (h : ∀ c ∈ l1, p c = true) : (l1 ++ l2).takeWhile p = l1 ++ l2.takeWhile p := by
  induction l1 with
  | nil => simp
  | cons a l ih =>
    simp only [List.cons_append, List.takeWhile_cons, h a (List.mem_cons_self a l), if_true]
    rw [ih (fun c hc => h c (List.mem_cons_of_mem a hc))]

theorem dropWhile_cons_neg {p : Char → Bool} {a : Char} {l : List Char}
    (h : p a = false) : (a :: l).dropWhile p = a :: l := by
  simp [List.dropWhile_cons, h]

theorem takeWhile_cons_neg {p : Char → Bool} {a : Char} {l : List Char}
    (h : p a = false) : (a :: l).takeWhile p = [] := by
  simp [List.takeWhile_cons, h]

/-- C8 counterexample: the line `key=value` carries a key, an `'='` and a
value with zero surrounding whitespace, yet `ConfigParser::parse` produces
no map entry for it — the key token scan runs to the end of the line (the
key is only delimited by whitespace, not by `'='`) and `process_line`
returns early. -/
theorem parse_no_entry_for_unspaced_line :
    ConfigParser.parse [['k', 'e', 'y', '=', 'v', 'a', 'l', 'u', 'e']] = [] ∧
    process_line ['k', 'e', 'y', '=', 'v', 'a', 'l', 'u', 'e'] = none := by
  constructor
  · decide
  · decide

/-- C8 as amended: for every configuration line made of optional leading
whitespace, a non-empty whitespace-free key, at least one whitespace
character, an `'='`, optional whitespace, and a non-empty value starting
and ending with non-whitespace, `process_line` yields the entry mapping the
key to the value with surrounding whitespace trimmed, and `parse` of that
single line produces exactly that map entry. -/
theorem process_line_spaced_key_value
    (ws1 key ws2 ws3 value ws4 : List Char)
    (h1 : ∀ c ∈ ws1, isspace c = true)
    (h2 : key ≠ [])
    (h3 : ∀ c ∈ key, isspace c = false)
    (h4 : ws2 ≠ [])
    (h5 : ∀ c ∈ ws2, isspace c = true)
    (h6 : ∀ c ∈ ws3, isspace c = true)
    (h7 : value ≠ [])
    (h8 : ∀ c, value.head? = some c → isspace c = false)
    (h9 : ∀ c, value.getLast? = some c → isspace c = false)
    (h10 : ∀ c ∈ ws4, isspace c = true) :
    process_line (ws1 ++ key ++ ws2 ++ '=' :: (ws3 ++ value ++ ws4)) = some (key, value) ∧
    ConfigParser.parse [ws1 ++ key ++ ws2 ++ '=' :: (ws3 ++ value ++ ws4)] = [(key, value)] := by
  obtain ⟨k, key', rfl⟩ := List.exists_cons_of_ne_nil h2
  obtain ⟨w, ws2', rfl⟩ := List.exists_cons_of_ne_nil h4
  obtain ⟨v, value', rfl⟩ := List.exists_cons_of_ne_nil h7
  have hk : isspace k = false := h3 k (List.mem_cons_self k key')
  have hw : isspace w = true := h5 w (List.mem_cons_self w ws2')
  have hv : isspace v = false := h8 v rfl
  have hline : ws1 ++ (k :: key') ++ (w :: ws2') ++ '=' :: (ws3 ++ (v :: value') ++ ws4) =
      ws1 ++ k :: (key' ++ w :: (ws2' ++ '=' :: (ws3 ++ v :: (value' ++ ws4)))) := by
    simp
  rw [hline]
  -- step 1: leading whitespace is skipped, the key head stops the skip
  have e1 : (ws1 ++ k :: (key' ++ w :: (ws2' ++ '=' ::
      (ws3 ++ v :: (value' ++ ws4))))).dropWhile isspace =
      k :: (key' ++ w :: (ws2' ++ '=' :: (ws3 ++ v :: (value' ++ ws4)))) := by
    rw [dropWhile_append_all _ h1, dropWhile_cons_neg hk]
  -- step 2: the key token is the maximal non-whitespace run
  have hkeyall : ∀ c ∈ (k :: key'), (fun c => !(isspace c)) c = true := by
    intro c hc
    simp [h3 c hc]
  have e2 : (k :: (key' ++ w :: (ws2' ++ '=' :: (ws3 ++ v :: (value' ++ ws4))))).takeWhile
      (fun c => !(isspace c)) = k :: key' := by
    have h := takeWhile_append_all
      (w :: (ws2' ++ '=' :: (ws3 ++ v :: (value' ++ ws4)))) hkeyall
    simp only [List.cons_append] at h
    rw [h, takeWhile_cons_neg (by simp [hw]), List.append_nil]
  have e3 : (k :: (key' ++ w :: (ws2' ++ '=' :: (ws3 ++ v :: (value' ++ ws4))))).dropWhile
      (fun c => !(isspace c)) = w :: (ws2' ++ '=' :: (ws3 ++ v :: (value' ++ ws4))) := by
    have h := dropWhile_append_all
      (w :: (ws2' ++ '=' :: (ws3 ++ v :: (value' ++ ws4)))) hkeyall
    simp only [List.cons_append] at h
    rw [h, dropWhile_cons_neg (by simp [hw])]
  -- step 3: the scan to the first '=' passes the whitespace run
  have hwsne : ∀ c ∈ (w :: ws2'), (fun c => !(decide (c = '='))) c = true := by
    intro c hc
    have hsp := h5 c hc
    have hne : c ≠ '=' := by
      intro he
      rw [he] at hsp
      exact absurd hsp (by decide)
    simp [hne]
  have e4 : (w :: (ws2' ++ '=' :: (ws3 ++ v :: (value' ++ ws4)))).dropWhile
      (fun c => !(decide (c = '='))) = '=' :: (ws3 ++ v :: (value' ++ ws4)) := by
    have h := dropWhile_append_all ('=' :: (ws3 ++ v :: (value' ++ ws4))) hwsne
    simp only [List.cons_append] at h
    rw [h, dropWhile_cons_neg (by simp)]
  -- step 4: whitespace after '=' is skipped, the value head stops the skip
  have e5 : (ws3 ++ v :: (value' ++ ws4)).dropWhile isspace = v :: (value' ++ ws4) := by
    rw [dropWhile_append_all _ h6, dropWhile_cons_neg hv]
  -- step 5: trailing whitespace is trimmed from the value
  have e6 : dropTrailingSpace (v :: (value' ++ ws4)) = v :: value' := by
    unfold dropTrailingSpace
    have hrw : (v :: (value' ++ ws4)).reverse = ws4.reverse ++ (v :: value').reverse := by
      simp
    rw [hrw, dropWhile_append_all _ (by
      intro c hc
      exact h10 c (List.mem_reverse.mp hc))]
    rcases hrev : (v :: value').reverse with _ | ⟨g, gs⟩
    · exact absurd hrev (by simp)
    · have hg : (v :: value').getLast? = some g := by
        rw [List.getLast?_eq_head?_reverse, hrev]
        rfl
      rw [dropWhile_cons_neg (h9 g hg), ← hrev, List.reverse_reverse]
  -- assemble
  have hmain : process_line (ws1 ++ k :: (key' ++ w :: (ws2' ++ '=' ::
      (ws3 ++ v :: (value' ++ ws4))))) = some (k :: key', v :: value') := by
    unfold process_line
    rw [e1]
    simp only [List.isEmpty_cons, Bool.false_eq_true, if_false]
    rw [e2, e3]
    simp only [List.isEmpty_cons, Bool.false_eq_true, if_false]
    rw [e4]
    simp only [List.isEmpty_cons, Bool.false_eq_true, if_false, List.drop_succ_cons,
      List.drop_zero]
    rw [e5]
    simp only [List.isEmpty_cons, Bool.false_eq_true, if_false]
    rw [e6]
  refine ⟨hmain, ?_⟩
  unfold ConfigParser.parse
  simp only [List.foldl_cons, List.foldl_nil]
  have hne2 : (ws1 ++ k :: (key' ++ w :: (ws2' ++ '=' ::
      (ws3 ++ v :: (value' ++ ws4))))).isEmpty = false := by
    simp
  rw [hne2]
  simp only [Bool.false_eq_true, if_false, hmain, emplace, List.lookup_nil, Option.isSome_none,
    List.nil_append]

/-- Witness for the amended C8 at the concrete line `" host = 1.2.3  "`:
`process_line` and `parse` produce the entry `host`-to-`1.2.3`. -/
theorem process_line_spaced_key_value_witness :
    process_line [' ', 'h', 'o', 's', 't', ' ', '=', ' ', '1', '.', '2', '.', '3', ' ', ' '] =
      some (['h', 'o', 's', 't'], ['1', '.', '2', '.', '3']) ∧
    ConfigParser.parse
        [[' ', 'h', 'o', 's', 't', ' ', '=', ' ', '1', '.', '2', '.', '3', ' ', ' ']] =
      [(['h', 'o', 's', 't'], ['1', '.', '2', '.', '3'])] :=
  process_line_spaced_key_value [' '] ['h', 'o', 's', 't'] [' '] [' ']
    ['1', '.', '2', '.', '3'] [' ', ' ']
    (by decide) (by decide) (by decide) (by decide) (by decide) (by decide)
    (by decide) (by decide) (by decide) (by decide)

theorem scan_foldl_bit (env : Nat → SockEnv) (idxs : List Nat) (t : Nat → Bool) (p : Nat) :
    idxs.foldl (fun table i => fun j => if j = i then PortScanner.port_scan (env i) else table j)
      t p = if p ∈ idxs then PortScanner.port_scan (env p) else t p := by
  induction idxs generalizing t with
  | nil => simp
  | cons i is ih =>
    simp only [List.foldl_cons, ih, List.mem_cons]
    by_cases hmem : p ∈ is
    · simp [hmem]
    · by_cases hpi : p = i
      · subst hpi
        simp [hmem]
      · simp [hmem, hpi]

theorem scan_bit (env : Nat → SockEnv) (ps pe p : Nat) :
    PortScanner.scan env ps pe p =
      if p ∈ scanIndices ps pe then PortScanner.port_scan (env p) else false :=
  scan_foldl_bit env (scanIndices ps pe) (fun _ => false) p

theorem connect_accepts_iff (e : SockEnv) (hp : e.pton_ok = true) (hg : e.getfl_ok = true)
    (hsfl : e.setfl_ok = true) (hso : e.sockopt_ok = true) :
    (Socket.connect e = true ↔ acceptsWithin e) := by
  unfold Socket.connect acceptsWithin
  rw [hp, hg, hsfl, hso]
  cases hc : e.connectRes with
  | immediate => simp
  | errOther => simp
  | einprogress =>
    by_cases hpoll : e.pollRes ≤ 0
    · simp only [if_pos hpoll]
      constructor
      · intro h
        exact absurd h (by simp)
      · rintro (h | ⟨_, h2, _⟩)
        · exact absurd h (by simp)
        · omega
    · simp only [if_neg hpoll]
      simp only [Bool.true_eq_false, if_false]
      constructor
      · intro h
        exact Or.inr ⟨by simp, by omega, by simpa using h⟩
      · rintro (h | ⟨_, _, h3⟩)
        · exact absurd h (by simp)
        · simp [h3]

/-- C1: for every port range and a responsive network in which exactly the
ports in the set `A` accept a TCP connection within the timeout,
`PortScanner::scan` returns a table whose set bits within
`[port_start, port_end]` are exactly `A` — a port in the range is reported
open if and only if it accepted a connection within the timeout — and no
bit outside the range is set. -/
theorem scan_reports_exactly_accepting_ports (env : Nat → SockEnv) (A : Nat → Bool)
    (port_start port_end : Nat) (hresp : responsiveNet env A) :
    (∀ p, port_start ≤ p → p ≤ port_end →
      PortScanner.scan env port_start port_end p = A p) ∧
    (∀ q, ¬ (port_start ≤ q ∧ q ≤ port_end) →
      PortScanner.scan env port_start port_end q = false) := by
  constructor
  · intro p hlo hhi
    rw [scan_bit, if_pos ((mem_scanIndices _ _ _).2 ⟨hlo, hhi⟩)]
    obtain ⟨hsk, hp, hg, hsfl, hso, hacc⟩ := hresp p
    unfold PortScanner.port_scan
    rw [hsk, Bool.true_and]
    have hc := connect_accepts_iff (env p) hp hg hsfl hso
    by_cases hA : A p = true
    · rw [hA]
      exact hc.2 (hacc.2 hA)
    · have hAf : A p = false := by simpa using hA
      rw [hAf]
      by_contra hne
      have ht : Socket.connect (env p) = true := by simpa using hne
      exact hA (hacc.1 (hc.1 ht))
  · intro q hq
    rw [scan_bit, if_neg (fun hm => hq ((mem_scanIndices _ _ _).1 hm))]

theorem responsiveNet_envOnly80 : responsiveNet envOnly80 setOnly80 := by
  intro p
  by_cases h : p = 80 <;>
    simp [envOnly80, setOnly80, envInProgressOk, envRefuse, acceptsWithin, h]

/-- Witness for C1 on the network where exactly port 80 accepts: scanning
79 to 81 reports port 80 open and port 79 closed. -/
theorem scan_reports_exactly_accepting_ports_witness :
    responsiveNet envOnly80 setOnly80 ∧
    PortScanner.scan envOnly80 79 81 80 = setOnly80 80 ∧
    PortScanner.scan envOnly80 79 81 79 = setOnly80 79 :=
  ⟨responsiveNet_envOnly80,
    (scan_reports_exactly_accepting_ports envOnly80 setOnly80 79 81
      responsiveNet_envOnly80).1 80 (by omega) (by omega),
    (scan_reports_exactly_accepting_ports envOnly80 setOnly80 79 81
      responsiveNet_envOnly80).1 79 (by omega) (by omega)⟩

/-- C2: for every connect attempt whose non-blocking connect reported
in-progress and whose readiness wait then reports the socket ready, the
attempt is classified open exactly when the pending-error query succeeds
and reports no error; any pending error, and also a failed pending-error
query, classifies the attempt closed (`Socket::connect` returns false). -/
theorem connect_write_ready_classification (e : SockEnv)
    (h1 : e.pton_ok = true) (h2 : e.getfl_ok = true) (h3 : e.setfl_ok = true)
    (h4 : e.connectRes = ConnRes.einprogress) (h5 : 0 < e.pollRes) :
    (Socket.connect e = true ↔ (e.sockopt_ok = true ∧ e.soError = 0)) ∧
    ((e.sockopt_ok = false ∨ e.soError ≠ 0) → Socket.connect e = false) := by
  have hmain : Socket.connect e = (e.sockopt_ok && decide (e.soError = 0)) := by
    unfold Socket.connect
    rw [h1, h2, h3, h4]
    simp only [Bool.true_eq_false, if_false]
    rw [if_neg (by omega)]
    cases hso : e.sockopt_ok
    · simp
    · simp
  rw [hmain]
  constructor
  · constructor
    · intro h
      simpa using h
    · rintro ⟨ha, hb⟩
      simp [ha, hb]
  · rintro (h | h) <;> simp [h]

/-- Witness for C2 at a concrete in-progress, write-ready attempt with a
clean pending-error query: it is classified open. -/
theorem connect_write_ready_classification_witness :
    envInProgressOk.pton_ok = true ∧ envInProgressOk.getfl_ok = true ∧
    envInProgressOk.setfl_ok = true ∧
    envInProgressOk.connectRes = ConnRes.einprogress ∧ 0 < envInProgressOk.pollRes ∧
    ((Socket.connect envInProgressOk = true ↔
        (envInProgressOk.sockopt_ok = true ∧ envInProgressOk.soError = 0)) ∧
      ((envInProgressOk.sockopt_ok = false ∨ envInProgressOk.soError ≠ 0) →
        Socket.connect envInProgressOk = false)) :=
  ⟨rfl, rfl, rfl, rfl, by decide,
    connect_write_ready_classification envInProgressOk rfl rfl rfl rfl (by decide)⟩

/-- C3: an attempt whose non-blocking connect reported in-progress and whose
single readiness wait returns without reporting the socket ready (timeout
or failure, `poll_result <= 0`) is classified closed, its port's table bit
is unset, and the scan loop visits each port at most once, so the attempt
is never retried within the same scan invocation. -/
theorem connect_poll_timeout_closed (env : Nat → SockEnv) (ps pe p : Nat)
    (h4 : (env p).connectRes = ConnRes.einprogress) (h5 : (env p).pollRes ≤ 0) :
    Socket.connect (env p) = false ∧
    PortScanner.scan env ps pe p = false ∧
    (scanIndices ps pe).count p ≤ 1 := by
  have hc : Socket.connect (env p) = false := by
    unfold Socket.connect
    rw [h4]
    split_ifs <;> simp_all
  refine ⟨hc, ?_, ?_⟩
  · rw [scan_bit]
    by_cases hm : p ∈ scanIndices ps pe
    · rw [if_pos hm]
      unfold PortScanner.port_scan
      rw [hc, Bool.and_false]
    · rw [if_neg hm]
  · exact List.nodup_iff_count_le_one.1 (List.nodup_range' ps (pe + 1 - ps)) p

/-- Witness for C3 at a concrete all-timeout network: port 1 of the scan of
0 to 2 is classified closed and absent. -/
theorem connect_poll_timeout_closed_witness :
    (envAllTimeout 1).connectRes = ConnRes.einprogress ∧ (envAllTimeout 1).pollRes ≤ 0 ∧
    (Socket.connect (envAllTimeout 1) = false ∧
      PortScanner.scan envAllTimeout 0 2 1 = false ∧
      (scanIndices 0 2).count 1 ≤ 1) :=
  ⟨rfl, by decide, connect_poll_timeout_closed envAllTimeout 0 2 1 rfl (by decide)⟩

theorem filter_range_ge (n a : Nat) :
    (List.range n).filter (fun i => decide (a ≤ i)) = List.range' a (n - a) := by
  induction n with
  | zero => simp
  | succ m ih =>
    rw [List.range_succ, List.filter_append, ih]
    rcases Nat.lt_or_ge m a with h | h
    · have h1 : (decide (a ≤ m)) = false := by simp; omega
      have h2 : m - a = 0 := by omega
      have h3 : m + 1 - a = 0 := by omega
      simp [List.filter_cons, h1, h2, h3]
    · have h1 : (decide (a ≤ m)) = true := by simp [h]
      simp only [List.filter_cons, h1, if_true, List.filter_nil]
      have h2 : m + 1 - a = (m - a) + 1 := by omega
      rw [h2, List.range'_1_concat]
      have h3 : a + (m - a) = m := by omega
      rw [h3]

theorem filter_range_between (n a b : Nat) (hb : b < n) :
    (List.range n).filter (fun i => decide (a ≤ i) && decide (i ≤ b)) =
      List.range' a (b + 1 - a) := by
  induction n with
  | zero => omega
  | succ m ih =>
    rcases Nat.lt_or_ge b m with h | h
    · rw [List.range_succ, List.filter_append, ih h]
      have h1 : (decide (a ≤ m) && decide (m ≤ b)) = false := by
        simp only [Bool.and_eq_false_iff]
        right
        simp
        omega
      simp [List.filter_cons, h1]
    · have hbm : b = m := by omega
      subst hbm
      have hcg : ∀ x ∈ List.range (b + 1),
          (decide (a ≤ x) && decide (x ≤ b)) = decide (a ≤ x) := by
        intro x hx
        rw [List.mem_range] at hx
        have : (decide (x ≤ b)) = true := by simp; omega
        rw [this, Bool.and_true]
      rw [List.filter_congr hcg, filter_range_ge]

/-- C6: the sequence of ports the program reports open is a subsequence of
the input port sequence `port_start, ..., port_end`, preserving its relative
order end to end: the report loop walks the table in ascending index order
and only indices inside the scanned range can be set. -/
theorem opened_ports_sublist_of_input (env : Nat → SockEnv) (ps pe : Nat)
    (hpe : pe ≤ 65535) :
    List.Sublist (openedPortsList (PortScanner.scan env ps pe)) (scanIndices ps pe) := by
  have hmono : ∀ i, PortScanner.scan env ps pe i = true →
      (decide (ps ≤ i) && decide (i ≤ pe)) = true := by
    intro i hi
    rw [scan_bit] at hi
    by_cases hm : i ∈ scanIndices ps pe
    · have hb := (mem_scanIndices ps pe i).1 hm
      simp [hb.1, hb.2]
    · rw [if_neg hm] at hi
      exact absurd hi (by simp)
  have h1 : List.Sublist (openedPortsList (PortScanner.scan env ps pe))
      ((List.range 65536).filter (fun i => decide (ps ≤ i) && decide (i ≤ pe))) :=
    List.monotone_filter_right _ (fun a ha => hmono a ha)
  have h2 : (List.range 65536).filter (fun i => decide (ps ≤ i) && decide (i ≤ pe)) =
      scanIndices ps pe := by
    rw [filter_range_between 65536 ps pe (by omega)]
    rfl
  rw [h2] at h1
  exact h1

/-- Witness for C6 at the concrete only-80 network and range 79 to 81. -/
theorem opened_ports_sublist_of_input_witness :
    (81 : Nat) ≤ 65535 ∧
    List.Sublist (openedPortsList (PortScanner.scan envOnly80 79 81)) (scanIndices 79 81) :=
  ⟨by omega, opened_ports_sublist_of_input envOnly80 79 81 (by omega)⟩

/-- C4 (on the spec-modelled batched core): if the readiness-notification
context cannot be created, or a socket cannot be registered with it, the
scan raises the distinguishable fatal error, which propagates to the caller
and aborts the in-progress scan — the result is the error and not a
partial opened-port list. -/
theorem mux_failure_aborts_scan (env : Nat → MuxEnv) (n : Nat) (ports : List Nat)
    (hports : ports ≠ []) :
    ((env 0).ctx_ok = false →
      Scanner.scan env n ports = Except.error FatalError.contextCreation) ∧
    ((env 0).ctx_ok = true → (env 0).submitRes 0 = SubmitOutcome.inProgress →
      (env 0).reg_ok 0 = false →
      Scanner.scan env n ports = Except.error FatalError.registration) := by
  obtain ⟨p, ps, rfl⟩ := List.exists_cons_of_ne_nil hports
  constructor
  · intro hctx
    show scanBatches env 0 (portChunks n (p :: ps)) = _
    rw [portChunks]
    simp only [scanBatches]
    unfold BatchConnector.run
    rw [hctx]
    simp
  · intro hctx hsub hreg
    show scanBatches env 0 (portChunks n (p :: ps)) = _
    rw [portChunks]
    simp only [scanBatches]
    unfold BatchConnector.run
    rw [hctx]
    simp only [Bool.true_eq_false, if_false]
    rw [submitAll]
    unfold submitOne
    rw [hsub, hreg]
    simp

/-- Witness for C4: a scan of the port list containing 80 in a batch
environment whose context creation fails returns the fatal error. -/
theorem mux_failure_aborts_scan_witness :
    ([80] : List Nat) ≠ [] ∧ (muxCtxFailAll 0).ctx_ok = false ∧
    Scanner.scan muxCtxFailAll 4 [80] = Except.error FatalError.contextCreation :=
  ⟨by decide, rfl,
    (mux_failure_aborts_scan muxCtxFailAll 4 [80] (by decide)).1 rfl⟩

theorem portChunks_length_le_aux (n : Nat) (hn : 0 < n) (fuel : Nat) :
    ∀ l : List Nat, l.length ≤ fuel → ∀ c ∈ portChunks n l, c.length ≤ n := by
  induction fuel with
  | zero =>
    intro l hl c hc
    have hnil : l = [] := by
      cases l with
      | nil => rfl
      | cons a as => simp at hl
    subst hnil
    simp [portChunks] at hc
  | succ f ih =>
    intro l hl c hc
    cases l with
    | nil => simp [portChunks] at hc
    | cons p ps =>
      rw [portChunks] at hc
      rcases List.mem_cons.1 hc with rfl | hmem
      · simp only [List.length_cons, List.length_take]
        omega
      · refine ih (ps.drop (n - 1)) ?_ c hmem
        simp only [List.length_drop]
        simp only [List.length_cons] at hl
        omega

theorem submitAll_ok_length (env : MuxEnv) (l : List Nat) :
    ∀ (idx : Nat) (recs : List AttemptRecord),
      submitAll env idx l = Except.ok recs → recs.length = l.length := by
  induction l with
  | nil =>
    intro idx recs h
    rw [submitAll] at h
    simp only [Except.ok.injEq] at h
    subst h
    rfl
  | cons p ps ih =>
    intro idx recs h
    rw [submitAll] at h
    rcases hs : submitOne env idx p with e | r
    · rw [hs] at h
      simp at h
    · rw [hs] at h
      rcases ht : submitAll env (idx + 1) ps with e | rs
      · rw [ht] at h
        simp at h
      · rw [ht] at h
        simp only [Except.ok.injEq] at h
        subst h
        simp [ih (idx + 1) rs ht]

/-- C5 (on the spec-modelled batched core): during a scan with batch
capacity `n`, every batch the Scanner forms holds at most `n` ports, and
the Connect Attempt Records a batch's submission phase creates — the
attempts simultaneously live, each holding a socket and possibly a
multiplexer registration — never number more than `n`. -/
theorem batch_capacity_bound (env : MuxEnv) (n : Nat) (ports : List Nat) (hn : 0 < n) :
    ∀ c ∈ portChunks n ports, c.length ≤ n ∧
      ∀ recs, submitAll env 0 c = Except.ok recs → recs.length ≤ n := by
  intro c hc
  have h1 := portChunks_length_le_aux n hn ports.length ports (le_refl _) c hc
  refine ⟨h1, ?_⟩
  intro recs hr
  have h2 := submitAll_ok_length env c 0 recs hr
  omega

/-- Witness for C5 with capacity 2 over three ports: the first batch holds
two ports and its submitted record count is bounded by 2. -/
theorem batch_capacity_bound_witness :
    (0 : Nat) < 2 ∧
    ([80, 81] : List Nat) ∈ portChunks 2 [80, 81, 82] ∧
    (([80, 81] : List Nat).length ≤ 2 ∧
      ∀ recs, submitAll muxAllOk 0 [80, 81] = Except.ok recs → recs.length ≤ 2) := by
  have hmem : ([80, 81] : List Nat) ∈ portChunks 2 [80, 81, 82] := by
    rw [portChunks]
    simp
  exact ⟨by omega, hmem, batch_capacity_bound muxAllOk 2 [80, 81, 82] (by omega) [80, 81] hmem⟩

end PortScannerRepo
